import Mathlib

/-!
Shallow embedding of `src/bandwidth_control.py` (net-emu): the trace-driven
bandwidth/latency control loop.  CSV rows are lists of string fields (as
produced by Python's `csv.reader`; a blank line yields `[]`).  Wall-clock
time is modelled as a rational number; `time.sleep` advances the clock.
External `tc` invocations are recorded as an explicit command trace, and a
small state machine (`TcState`) gives the observable effect of each command
on the shaping hierarchy of the single target interface.
-/

/-- Constant `DEFAULT_LATENCY_MS = "50ms"` from bandwidth_control.py line 17. -/
def DEFAULT_LATENCY_MS : String := "50ms"

/-- Constant `DEFAULT_BURST_BYTES = 15000` from bandwidth_control.py line 18. -/
def DEFAULT_BURST_BYTES : Nat := 15000

/-- Digit list to its numeric value (base 10); helper for the numeric parsers. -/
def digitsVal (cs : List Char) : Nat :=
  cs.foldl (fun n c => 10 * n + (c.toNat - 48)) 0

/-- Nonempty all-digit check with value; helper for the numeric parsers. -/
def digitsToNat? (cs : List Char) : Option Nat :=
  if cs ≠ [] ∧ cs.all Char.isDigit then some (digitsVal cs) else none

/-- Model of Python's `int(s)` used at line 159: strips whitespace, accepts an
optional sign followed by a nonempty digit string (digit-group underscores of
Python's grammar are not modelled; trace rates never use them). -/
def pyInt? (s : String) : Option Int :=
  match (s.trim).toList with
  | '+' :: cs => (digitsToNat? cs).map Int.ofNat
  | '-' :: cs => (digitsToNat? cs).map (fun n => -(n : Int))
  | cs => (digitsToNat? cs).map Int.ofNat

/-- Unsigned decimal literal `digits [. digits]` with at least one digit,
valued as a rational; helper for `pyFloat?`. -/
def pyFloatUnsigned? (cs : List Char) : Option Rat :=
  match cs.splitOn '.' with
  | [a] => (digitsToNat? a).map (fun n => (n : Rat))
  | [a, b] =>
    if (a ≠ [] ∨ b ≠ []) ∧ a.all Char.isDigit ∧ b.all Char.isDigit then
      some ((digitsVal a : Rat) + (digitsVal b : Rat) / ((10 : Rat) ^ b.length))
    else none
  | _ => none

/-- Model of Python's `float(s)` used at line 158, on plain decimal literals:
strips whitespace, optional sign, digits with an optional fractional part
(exponent/inf/nan forms are not modelled; trace offsets are plain decimals).
The value is represented exactly as a rational. -/
def pyFloat? (s : String) : Option Rat :=
  match (s.trim).toList with
  | '+' :: cs => pyFloatUnsigned? cs
  | '-' :: cs => (pyFloatUnsigned? cs).map (fun q => -q)
  | cs => pyFloatUnsigned? cs

/-- One `tc` command, one constructor per `run_tc_command` call site. -/
inductive TcCmd
  /-- `qdisc del dev {dev} root` (lines 58 and 80). -/
  | qdiscDelRoot (dev : String)
  /-- `qdisc add dev {dev} root handle 1: htb default 10` (line 84). -/
  | qdiscAddRootHtb (dev : String)
  /-- `class add dev {dev} parent 1: classid 1:1 htb rate {rate}kbit burst {burst}` (line 87). -/
  | classAddHtb (dev : String) (rate : Int) (burst : Nat)
  /-- `qdisc add dev {dev} parent 1:1 handle 10: netem delay {latency}` (line 90). -/
  | qdiscAddNetem (dev : String) (latency : String)
  /-- `filter add dev {dev} parent 1: protocol ip prio 1 u32 ... flowid 1:1` (lines 93-95). -/
  | filterAdd (dev : String)
  /-- `class change dev {dev} parent 1: classid 1:1 htb rate {rate}kbit burst {burst}` (line 110). -/
  | classChangeHtb (dev : String) (rate : Int) (burst : Nat)
deriving DecidableEq, Repr

/-- The exact command string passed to `run_tc_command` (the f-strings of the
source, without the `sudo tc ` prefix added at line 24). -/
def TcCmd.render : TcCmd → String
  | .qdiscDelRoot dev => "qdisc del dev " ++ dev ++ " root"
  | .qdiscAddRootHtb dev => "qdisc add dev " ++ dev ++ " root handle 1: htb default 10"
  | .classAddHtb dev rate burst =>
      "class add dev " ++ dev ++ " parent 1: classid 1:1 htb rate " ++ toString rate ++
        "kbit burst " ++ toString burst
  | .qdiscAddNetem dev latency =>
      "qdisc add dev " ++ dev ++ " parent 1:1 handle 10: netem delay " ++ latency
  | .filterAdd dev =>
      "filter add dev " ++ dev ++
        " parent 1: protocol ip prio 1 u32 match ip src 0.0.0.0/0 match ip dst 0.0.0.0/0 flowid 1:1"
  | .classChangeHtb dev rate burst =>
      "class change dev " ++ dev ++ " parent 1: classid 1:1 htb rate " ++ toString rate ++
        "kbit burst " ++ toString burst

/-- One step of `apply_bandwidth_latency`: a `tc` invocation or the
`time.sleep(0.1)` pause at line 81. -/
inductive SetupStep
  | cmd (c : TcCmd)
  | pause (seconds : Rat)
deriving DecidableEq, Repr

/-- Commands of a setup-step sequence (pauses dropped). -/
def setupCmds (steps : List SetupStep) : List TcCmd :=
  steps.filterMap (fun st => match st with | .cmd c => some c | .pause _ => none)

/-- `apply_bandwidth_latency(interface, rate_kbps, latency_ms)` (lines 65-97):
the sequence of external steps it performs, in order.  (It also assigns the
global `target_interface := interface`; the event loop model below records
that assignment.) -/
def apply_bandwidth_latency (interface : String) (rate_kbps : Int) (latency_ms : String) :
    List SetupStep :=
  [ .cmd (.qdiscDelRoot interface),
    .pause (1 / 10),
    .cmd (.qdiscAddRootHtb interface),
    .cmd (.classAddHtb interface rate_kbps DEFAULT_BURST_BYTES),
    .cmd (.qdiscAddNetem interface latency_ms),
    .cmd (.filterAdd interface) ]

/-- `change_bandwidth(interface, rate_kbps)` (lines 100-111): the single
`class change` command it issues. -/
def change_bandwidth (interface : String) (rate_kbps : Int) : List TcCmd :=
  [ .classChangeHtb interface rate_kbps DEFAULT_BURST_BYTES ]

/-- `cleanup_tc` (lines 45-62): issues `qdisc del dev {target_interface} root`
when the global `target_interface` is truthy, nothing otherwise; it then calls
`sys.exit(0)`.  Python's `if target_interface:` at line 54 is false both for
`None` and for the empty string, so a target recorded as `""` issues no
command. -/
def cleanup_tc (target_interface : Option String) : List TcCmd :=
  match target_interface with
  | some iface => if iface = "" then [] else [.qdiscDelRoot iface]
  | none => []

/-! Observable state of the shaping hierarchy on the target interface, and the
effect of each command on it (the external `tc` interpreter at its interface:
deleting the root qdisc removes the whole hierarchy and is tolerated when
nothing is installed; `class change` mutates only the class parameters). -/

/-- Logical state of the shaping hierarchy on the (single) target interface. -/
structure TcState where
  /-- Root HTB qdisc `1:` present. -/
  rootHtb : Bool
  /-- Class `1:1`: rate (kbit) and burst (bytes), when present. -/
  htbClass : Option (Int × Nat)
  /-- Netem qdisc `10:` delay string, when present. -/
  netem : Option String
  /-- Catch-all u32 filter present. -/
  filter : Bool
deriving DecidableEq, Repr

/-- The empty hierarchy (spec state `Absent`). -/
def emptyTc : TcState := ⟨false, none, none, false⟩

/-- Effect of one `tc` command on the hierarchy state. -/
def stepCmd (s : TcState) : TcCmd → TcState
  | .qdiscDelRoot _ => emptyTc
  | .qdiscAddRootHtb _ => { s with rootHtb := true }
  | .classAddHtb _ rate burst => { s with htbClass := some (rate, burst) }
  | .qdiscAddNetem _ latency => { s with netem := some latency }
  | .filterAdd _ => { s with filter := true }
  | .classChangeHtb _ rate burst =>
      if s.htbClass.isSome then { s with htbClass := some (rate, burst) } else s

/-- Effect of a command sequence on the hierarchy state. -/
def stepCmds (s : TcState) (cs : List TcCmd) : TcState := cs.foldl stepCmd s

/-! The event loop (`__main__`, lines 134-185). -/

/-- An observable action of the scheduler loop, in order of occurrence. -/
inductive Ev
  /-- `time.sleep(sleep_duration)` at line 171: blocks until wall-clock `t`. -/
  | sleepUntil (t : Rat)
  /-- `apply_bandwidth_latency(interface, rate, latency)` at line 179. -/
  | initialApply (interface : String) (rate : Int) (latency : String)
  /-- `change_bandwidth(interface, rate)` at line 183. -/
  | rateChange (interface : String) (rate : Int)
deriving DecidableEq, Repr

/-- The `tc` commands an action issues. -/
def Ev.tcCmds : Ev → List TcCmd
  | .sleepUntil _ => []
  | .initialApply interface rate latency => setupCmds (apply_bandwidth_latency interface rate latency)
  | .rateChange interface rate => change_bandwidth interface rate

/-- Whether an action is a shaping operation (initial apply or rate change). -/
def Ev.isApplyB : Ev → Bool
  | .sleepUntil _ => false
  | .initialApply _ _ _ => true
  | .rateChange _ _ => true

/-- Whether an action is the initial apply. -/
def Ev.isInitialB : Ev → Bool
  | .initialApply _ _ _ => true
  | _ => false

/-- Whether an action carries a nonnegative rate (sleeps trivially do). -/
def Ev.rateOkB : Ev → Bool
  | .sleepUntil _ => true
  | .initialApply _ rate _ => 0 ≤ rate
  | .rateChange _ rate => 0 ≤ rate

/-- The shaping operations of an action list, sleeps dropped. -/
def schedOps (evs : List Ev) : List Ev := evs.filter Ev.isApplyB

/-- State of the event loop: the wall clock (`time.time()` value), the
`initial_rate_set` flag, the global `target_interface`, `last_offset`, and
the actions performed so far. -/
structure LoopSt where
  now : Rat
  initial_rate_set : Bool
  target_interface : Option String
  last_offset : Rat
  events : List Ev
deriving DecidableEq, Repr

/-- Loop state at `start_time` (lines 134-136 and the global at line 19). -/
def initSt (start_time : Rat) : LoopSt :=
  ⟨start_time, false, none, 0, []⟩

/-- Line 154: `if not row or (len(row) > 0 and row[0].strip().startswith('#'))`. -/
def skipRow : List String → Bool
  | [] => true
  | f :: _ => (f.trim).startsWith "#"

/-- Lines 157-162: parse field 0 as float and field 1 as int; `none` models the
caught `ValueError`/`IndexError` (the row is skipped with a diagnostic). -/
def parseRow (row : List String) : Option (Rat × Int) :=
  match row[0]?.bind pyFloat?, row[1]?.bind pyInt? with
  | some time_offset, some throughput_kbps => some (time_offset, throughput_kbps)
  | _, _ => none

/-- Lines 164-171: compute `sleep_duration = start_time + time_offset - now`
and sleep exactly when it is positive, advancing the clock to the target. -/
def sleepStep (start_time time_offset : Rat) (s : LoopSt) : LoopSt :=
  let target_exec_time := start_time + time_offset
  let sleep_duration := target_exec_time - s.now
  if sleep_duration > 0 then
    { s with now := target_exec_time, events := s.events ++ [Ev.sleepUntil target_exec_time] }
  else s

/-- The `for row in rows_to_process` loop (lines 153-185): skip blank/comment
rows, skip unparseable rows, sleep to the target time, break on a negative
rate (sentinel), otherwise dispatch to initial apply or rate change and
record `last_offset`. -/
def loop (interface latency : String) (start_time : Rat) :
    List (List String) → LoopSt → LoopSt
  | [], s => s
  | row :: rest, s =>
    if skipRow row then loop interface latency start_time rest s
    else
      match parseRow row with
      | none => loop interface latency start_time rest s
      | some (time_offset, throughput_kbps) =>
        let s1 := sleepStep start_time time_offset s
        if throughput_kbps < 0 then s1
        else
          let s2 :=
            if ¬ s1.initial_rate_set then
              { s1 with initial_rate_set := true, target_interface := some interface,
                        events := s1.events ++ [Ev.initialApply interface throughput_kbps latency] }
            else
              { s1 with events := s1.events ++ [Ev.rateChange interface throughput_kbps] }
          loop interface latency start_time rest { s2 with last_offset := time_offset }

/-- Lines 143-147: optional header removal.  `none` models the uncaught-in-place
`IndexError` of `all_rows[0][0]` when the first row is blank (it propagates to
the generic `except Exception` handler at line 190). -/
def rows_to_process (all_rows : List (List String)) : Option (List (List String)) :=
  match all_rows with
  | [] => some []
  | row :: rest =>
    match row with
    | [] => none
    | f :: _ =>
      if (f.trim).startsWith "#" ∨ (f.trim).toLower = "time (s)" then some rest
      else some (row :: rest)

/-- Line 124: `latency = sys.argv[3] + "ms" if len(sys.argv) == 4 else DEFAULT_LATENCY_MS`. -/
def chooseLatency (argv : List String) : String :=
  if argv.length = 4 then argv.getD 3 "" ++ "ms" else DEFAULT_LATENCY_MS

/-- The rates the loop will apply: rates of the usable rows (not skipped, both
fields parse) up to but excluding the first sentinel (negative) rate. -/
def usableRates : List (List String) → List Int
  | [] => []
  | row :: rest =>
    if skipRow row then usableRates rest
    else
      match parseRow row with
      | none => usableRates rest
      | some (_, k) => if k < 0 then [] else k :: usableRates rest

/-- The usable rows of a row list (not skipped and both fields parse), with
their parsed values; no sentinel cut. -/
def usableRows (rows : List (List String)) : List (Rat × Int) :=
  rows.filterMap (fun row => if skipRow row then none else parseRow row)

/-- The trace file handed to the program: missing (raises `FileNotFoundError`)
or present with its csv rows. -/
inductive TraceFile
  | missing
  | present (all_rows : List (List String))

/-- Outcome of one run of `__main__`: the final process exit code, the actions
of the scheduler loop, how many times `cleanup_tc` ran and what it issued, the
final `target_interface`, and which diagnostic path (if any) was taken. -/
structure MainResult where
  exit_code : Nat
  events : List Ev := []
  cleanup_invocations : Nat := 0
  cleanup_cmds : List TcCmd := []
  final_target : Option String := none
  usage_error : Bool := false
  file_not_found_error : Bool := false
  trace_empty_error : Bool := false
  unexpected_error : Bool := false
deriving DecidableEq, Repr

/-- `__main__` (lines 114-194).  The argument check exits 1 before the `try`
block.  Every later path runs the `finally` clause, whose `cleanup_tc` call
ends in `sys.exit(0)`; the raised `SystemExit(0)` replaces any in-flight
`SystemExit(1)` (missing file, empty trace) or other exception, so all those
paths terminate with exit code 0.  `start_time` is the value of `time.time()`
at line 134.  (Asynchronous signal delivery is outside this model.) -/
def mainRun (argv : List String) (file : TraceFile) (start_time : Rat) : MainResult :=
  if argv.length < 3 ∨ argv.length > 4 then
    { exit_code := 1, usage_error := true }
  else
    let interface := argv.getD 1 ""
    let latency := chooseLatency argv
    match file with
    | .missing =>
      { exit_code := 0, cleanup_invocations := 1, cleanup_cmds := cleanup_tc none,
        file_not_found_error := true }
    | .present all_rows =>
      match rows_to_process all_rows with
      | none =>
        { exit_code := 0, cleanup_invocations := 1, cleanup_cmds := cleanup_tc none,
          unexpected_error := true }
      | some [] =>
        { exit_code := 0, cleanup_invocations := 1, cleanup_cmds := cleanup_tc none,
          trace_empty_error := true }
      | some rows =>
        let s := loop interface latency start_time rows (initSt start_time)
        { exit_code := 0, events := s.events, cleanup_invocations := 1,
          cleanup_cmds := cleanup_tc s.target_interface, final_target := s.target_interface }

/-- Cumulative effect on the hierarchy of the `tc` commands issued by a list of
scheduler actions, in order. -/
def runEvents (s : TcState) (evs : List Ev) : TcState :=
  stepCmds s (evs.map Ev.tcCmds).flatten

/-! Helper lemmas about `sleepStep`, `schedOps` and the event loop. -/

theorem sleepStep_eq (t o : Rat) (s : LoopSt) :
    sleepStep t o s =
      if s.now < t + o then
        { s with now := t + o, events := s.events ++ [Ev.sleepUntil (t + o)] }
      else s := by
  simp only [sleepStep, gt_iff_lt, sub_pos]

theorem sleepStep_now (t o : Rat) (s : LoopSt) :
    (sleepStep t o s).now = max s.now (t + o) := by
  rw [sleepStep_eq]
  split
  · next h => rw [max_eq_right (le_of_lt h)]
  · next h => rw [max_eq_left (not_lt.mp h)]

theorem sleepStep_events (t o : Rat) (s : LoopSt) :
    (sleepStep t o s).events =
      s.events ++ (if s.now < t + o then [Ev.sleepUntil (t + o)] else []) := by
  rw [sleepStep_eq]
  split <;> simp

theorem sleepStep_flags (t o : Rat) (s : LoopSt) :
    (sleepStep t o s).initial_rate_set = s.initial_rate_set ∧
    (sleepStep t o s).target_interface = s.target_interface := by
  rw [sleepStep_eq]
  split <;> exact ⟨rfl, rfl⟩

theorem schedOps_append (a b : List Ev) :
    schedOps (a ++ b) = schedOps a ++ schedOps b := by
  simp [schedOps, List.filter_append]

theorem schedOps_sleep_ite (c : Prop) [Decidable c] (t : Rat) :
    schedOps (if c then [Ev.sleepUntil t] else []) = [] := by
  split <;> simp [schedOps, Ev.isApplyB]

theorem loop_schedOps_set (i l : String) (t : Rat) (rows : List (List String)) (s : LoopSt)
    (hs : s.initial_rate_set = true) :
    schedOps (loop i l t rows s).events =
      schedOps s.events ++ (usableRates rows).map (fun r => Ev.rateChange i r) := by
  induction rows generalizing s with
  | nil => simp [loop, usableRates]
  | cons row rest ih =>
    by_cases hskip : skipRow row
    · simp only [loop, hskip, if_true, usableRates]
      exact ih s hs
    · simp only [loop, hskip, if_false, usableRates, Bool.false_eq_true]
      cases hp : parseRow row with
      | none => exact ih s hs
      | some v =>
        obtain ⟨o, k⟩ := v
        simp only
        by_cases hk : k < 0
        · simp only [hk, if_true]
          rw [sleepStep_events, schedOps_append, schedOps_sleep_ite]
          simp
        · simp only [hk, if_false]
          have hset : (sleepStep t o s).initial_rate_set = true := by
            rw [(sleepStep_flags t o s).1]; exact hs
          simp only [hset, not_true, if_neg, ite_false]
          rw [ih _ (by simp [hset])]
          rw [sleepStep_events]
          simp [schedOps_append, schedOps_sleep_ite, schedOps, Ev.isApplyB]

theorem loop_schedOps_unset (i l : String) (t : Rat) (rows : List (List String)) (s : LoopSt)
    (hs : s.initial_rate_set = false) :
    schedOps (loop i l t rows s).events =
      schedOps s.events ++
        (match usableRates rows with
         | [] => []
         | r :: rs => Ev.initialApply i r l :: rs.map (fun k => Ev.rateChange i k)) := by
  induction rows generalizing s with
  | nil => simp [loop, usableRates]
  | cons row rest ih =>
    by_cases hskip : skipRow row
    · simp only [loop, hskip, if_true, usableRates]
      exact ih s hs
    · simp only [loop, hskip, if_false, usableRates, Bool.false_eq_true]
      cases hp : parseRow row with
      | none => exact ih s hs
      | some v =>
        obtain ⟨o, k⟩ := v
        simp only
        by_cases hk : k < 0
        · simp only [hk, if_true]
          rw [sleepStep_events, schedOps_append, schedOps_sleep_ite]
        · simp only [hk, if_false]
          have hunset : (sleepStep t o s).initial_rate_set = false := by
            rw [(sleepStep_flags t o s).1]; exact hs
          simp only [hunset, not_false_iff, if_pos, Bool.false_eq_true, ite_true]
          rw [loop_schedOps_set i l t rest _ rfl]
          rw [sleepStep_events]
          simp [schedOps_append, schedOps_sleep_ite, schedOps, Ev.isApplyB]

theorem loop_target_set (i l : String) (t : Rat) (rows : List (List String)) (s : LoopSt)
    (hs : s.initial_rate_set = true) :
    (loop i l t rows s).target_interface = s.target_interface ∧
    (loop i l t rows s).initial_rate_set = true := by
  induction rows generalizing s with
  | nil => exact ⟨rfl, hs⟩
  | cons row rest ih =>
    by_cases hskip : skipRow row
    · simp only [loop, hskip, if_true]
      exact ih s hs
    · simp only [loop, hskip, if_false, Bool.false_eq_true]
      cases hp : parseRow row with
      | none => exact ih s hs
      | some v =>
        obtain ⟨o, k⟩ := v
        simp only
        by_cases hk : k < 0
        · simp only [hk, if_true]
          rw [(sleepStep_flags t o s).2]
          exact ⟨rfl, by rw [(sleepStep_flags t o s).1]; exact hs⟩
        · simp only [hk, if_false]
          have hset : (sleepStep t o s).initial_rate_set = true := by
            rw [(sleepStep_flags t o s).1]; exact hs
          simp only [hset, not_true, ite_false]
          have h2 := ih { now := (sleepStep t o s).now, initial_rate_set := true,
                          target_interface := (sleepStep t o s).target_interface,
                          last_offset := o,
                          events := (sleepStep t o s).events ++ [Ev.rateChange i k] } rfl
          refine ⟨?_, h2.2⟩
          rw [h2.1]
          exact (sleepStep_flags t o s).2

theorem loop_target_unset (i l : String) (t : Rat) (rows : List (List String)) (s : LoopSt)
    (hs : s.initial_rate_set = false) (ht : s.target_interface = none) :
    (loop i l t rows s).target_interface =
      (match usableRates rows with
       | [] => none
       | _ :: _ => some i) := by
  induction rows generalizing s with
  | nil => simpa [loop, usableRates] using ht
  | cons row rest ih =>
    by_cases hskip : skipRow row
    · simp only [loop, hskip, if_true, usableRates]
      exact ih s hs ht
    · simp only [loop, hskip, if_false, usableRates, Bool.false_eq_true]
      cases hp : parseRow row with
      | none => exact ih s hs ht
      | some v =>
        obtain ⟨o, k⟩ := v
        simp only
        by_cases hk : k < 0
        · simp only [hk, if_true]
          rw [(sleepStep_flags t o s).2]
          exact ht
        · simp only [hk, if_false]
          have hunset : (sleepStep t o s).initial_rate_set = false := by
            rw [(sleepStep_flags t o s).1]; exact hs
          simp only [hunset, Bool.false_eq_true, not_false_iff, ite_true]
          have := (loop_target_set i l t rest
            { now := (sleepStep t o s).now, initial_rate_set := true,
              target_interface := some i,
              last_offset := o,
              events := (sleepStep t o s).events ++ [Ev.initialApply i k l] } rfl).1
          simpa using this

theorem loop_rateOk (i l : String) (t : Rat) (rows : List (List String)) (s : LoopSt)
    (hs : s.events.all Ev.rateOkB = true) :
    ((loop i l t rows s).events.all Ev.rateOkB) = true := by
  induction rows generalizing s with
  | nil => simpa [loop] using hs
  | cons row rest ih =>
    by_cases hskip : skipRow row
    · simp only [loop, hskip, if_true]
      exact ih s hs
    · simp only [loop, hskip, if_false, Bool.false_eq_true]
      cases hp : parseRow row with
      | none => exact ih s hs
      | some v =>
        obtain ⟨o, k⟩ := v
        simp only
        have hsleep : ((sleepStep t o s).events.all Ev.rateOkB) = true := by
          rw [sleepStep_events, List.all_append, hs, Bool.true_and]
          split <;> simp [Ev.rateOkB]
        by_cases hk : k < 0
        · simpa only [hk, if_true] using hsleep
        · simp only [hk, if_false]
          split <;> (apply ih; simp [hsleep, Ev.rateOkB, le_of_not_lt hk])

theorem any_isInitialB_schedOps (evs : List Ev) :
    evs.any Ev.isInitialB = (schedOps evs).any Ev.isInitialB := by
  induction evs with
  | nil => rfl
  | cons e evs ih =>
    cases e <;> simp [schedOps, List.filter_cons, Ev.isApplyB, Ev.isInitialB] <;>
      simpa [schedOps] using ih

theorem mainRun_cleanup_cmds (argv : List String) (file : TraceFile) (t : Rat)
    (h : ¬ (argv.length < 3 ∨ argv.length > 4)) :
    (mainRun argv file t).cleanup_cmds =
      (if ((mainRun argv file t).events.any Ev.isInitialB) = true ∧ ¬ (argv.getD 1 "" = "")
        then [TcCmd.qdiscDelRoot (argv.getD 1 "")] else []) := by
  unfold mainRun
  rw [if_neg h]
  cases file with
  | missing => simp [cleanup_tc]
  | present all_rows =>
    cases hrp : rows_to_process all_rows with
    | none => simp [hrp, cleanup_tc]
    | some lrows =>
      cases lrows with
      | nil => simp [hrp, cleanup_tc]
      | cons r rs =>
        simp only [hrp]
        have h3 := any_isInitialB_schedOps
          (loop (argv.getD 1 "") (chooseLatency argv) t (r :: rs) (initSt t)).events
        simp only [h3,
          loop_schedOps_unset (argv.getD 1 "") (chooseLatency argv) t (r :: rs) (initSt t) rfl,
          loop_target_unset (argv.getD 1 "") (chooseLatency argv) t (r :: rs) (initSt t) rfl rfl]
        cases usableRates (r :: rs) with
        | nil => simp [initSt, schedOps, cleanup_tc]
        | cons u us =>
          by_cases hi : argv.getD 1 "" = ""
          · simp [initSt, schedOps, Ev.isInitialB, cleanup_tc, hi]
          · simp [initSt, schedOps, Ev.isInitialB, cleanup_tc, hi]

/-! Claim theorems. -/

/-- C2: for every trace, the shaping operations performed by the scheduler
loop are exactly one initial apply — on the first usable non-sentinel event,
with that event's rate and the configured latency — followed by the remaining
usable rates as rate changes, in file order; in particular a rate change is
never issued before the initial apply. -/
theorem C2_initial_then_changes (i l : String) (t : Rat) (rows : List (List String)) :
    schedOps (loop i l t rows (initSt t)).events =
      (match usableRates rows with
       | [] => []
       | r :: rs => Ev.initialApply i r l :: rs.map (fun k => Ev.rateChange i k)) := by
  have h := loop_schedOps_unset i l t rows (initSt t) rfl
  simpa [initSt, schedOps] using h

/-- C7: the initial apply issues, in this exact order: an unconditional delete
of any pre-existing root discipline (tolerated on the empty hierarchy: the
state is unchanged), a short fixed pause (0.1 s), creation of the root HTB
qdisc with default class, creation of the rate-limited class with the event's
rate and the fixed 15000-byte burst, creation of the netem delay qdisc with
the given latency, and creation of the catch-all IP filter; the latency is
the 50 ms default without an override and the override plus "ms" with one. -/
theorem C7_initial_apply_sequence (i : String) (r : Int) (l : String) :
    apply_bandwidth_latency i r l =
      [ SetupStep.cmd (TcCmd.qdiscDelRoot i),
        SetupStep.pause (1 / 10),
        SetupStep.cmd (TcCmd.qdiscAddRootHtb i),
        SetupStep.cmd (TcCmd.classAddHtb i r 15000),
        SetupStep.cmd (TcCmd.qdiscAddNetem i l),
        SetupStep.cmd (TcCmd.filterAdd i) ] ∧
    stepCmd emptyTc (TcCmd.qdiscDelRoot i) = emptyTc ∧
    chooseLatency ["prog", "eth0", "trace.csv"] = "50ms" ∧
    chooseLatency ["prog", "eth0", "trace.csv", "100"] = "100ms" ∧
    TcCmd.render (TcCmd.classAddHtb "eth0" 1000 DEFAULT_BURST_BYTES) =
      "class add dev eth0 parent 1: classid 1:1 htb rate 1000kbit burst 15000" := by
  refine ⟨rfl, rfl, by with_unfolding_all rfl, by with_unfolding_all rfl,
    by with_unfolding_all rfl⟩

/-- C8: a rate change issues exactly one external command, the `class change`
on class 1:1 with the new rate and the fixed burst; its effect on the
hierarchy state leaves the netem qdisc, the filter and the root qdisc
untouched, changing at most the class parameters. -/
theorem C8_rate_change_frame (i : String) (r : Int) (s : TcState) :
    change_bandwidth i r = [TcCmd.classChangeHtb i r DEFAULT_BURST_BYTES] ∧
    (change_bandwidth i r).length = 1 ∧
    (stepCmds s (change_bandwidth i r)).netem = s.netem ∧
    (stepCmds s (change_bandwidth i r)).filter = s.filter ∧
    (stepCmds s (change_bandwidth i r)).rootHtb = s.rootHtb := by
  refine ⟨rfl, rfl, ?_, ?_, ?_⟩ <;>
    simp only [stepCmds, change_bandwidth, List.foldl, stepCmd] <;>
    split <;> rfl

/-- C3: what the code actually does on the fatal paths.  The argument-count
error exits 1 (before the `try` block), but a missing trace file and an empty
trace exit 0: the `sys.exit(1)` raised inside the `try`/`except` is replaced
by the `sys.exit(0)` that `cleanup_tc` performs in the `finally` clause. -/
theorem C3_exit_code_on_fatal_paths :
    (mainRun ["bandwidth_control.py"] .missing 0).exit_code = 1 ∧
    (mainRun ["bandwidth_control.py"] .missing 0).usage_error = true ∧
    (mainRun ["bandwidth_control.py", "eth0", "missing.csv"] .missing 0).file_not_found_error
      = true ∧
    (mainRun ["bandwidth_control.py", "eth0", "missing.csv"] .missing 0).exit_code = 0 ∧
    (mainRun ["bandwidth_control.py", "eth0", "empty.csv"] (.present []) 0).trace_empty_error
      = true ∧
    (mainRun ["bandwidth_control.py", "eth0", "empty.csv"] (.present []) 0).exit_code = 0 := by
  refine ⟨?_, ?_, ?_, ?_, ?_, ?_⟩ <;> with_unfolding_all rfl

/-- C6: the scheduler blocks until `start_time + offset` exactly when that
instant is in the future (the clock becomes the max of now and the target,
and a sleep action is recorded only in the future case); two events at the
same offset are applied back-to-back with no sleep between them, and the trace
`0,500` then `0,800` leaves the class at rate 800. -/
theorem C6_sleep_semantics (t o : Rat) (s : LoopSt) (i l : String) :
    (sleepStep t o s).now = max s.now (t + o) ∧
    (sleepStep t o s).events =
      s.events ++ (if s.now < t + o then [Ev.sleepUntil (t + o)] else []) ∧
    (loop i l 0 [["0", "500"], ["0", "800"]] (initSt 0)).events =
      [Ev.initialApply i 500 l, Ev.rateChange i 800] ∧
    (runEvents emptyTc (loop i l 0 [["0", "500"], ["0", "800"]] (initSt 0)).events).htbClass =
      some (800, DEFAULT_BURST_BYTES) := by
  refine ⟨sleepStep_now t o s, sleepStep_events t o s, ?_, ?_⟩ <;> with_unfolding_all rfl

theorem loop_sentinel_truncates (i l : String) (t : Rat) (pre post : List (List String))
    (row : List String) (o : Rat) (k : Int)
    (hskip : skipRow row = false) (hp : parseRow row = some (o, k)) (hk : k < 0) :
    ∀ s : LoopSt, loop i l t (pre ++ row :: post) s = loop i l t (pre ++ [row]) s := by
  induction pre with
  | nil =>
    intro s
    simp only [List.nil_append, loop, hskip, Bool.false_eq_true, if_false, hp, hk, if_true]
  | cons r rest ih =>
    intro s
    simp only [List.cons_append, loop]
    by_cases hr : skipRow r
    · simp only [hr, if_true]
      exact ih s
    · simp only [hr, if_false, Bool.false_eq_true]
      cases hpr : parseRow r with
      | none => exact ih s
      | some v =>
        obtain ⟨o2, k2⟩ := v
        simp only
        by_cases hk2 : k2 < 0
        · simp [hk2]
        · simp only [hk2, if_false]
          split <;> exact ih _

/-- C5: a negative rate (the sentinel) stops the loop at once — the tail of the
trace after the sentinel row is never looked at — and is never applied as a
rate (every recorded shaping action carries a nonnegative rate); in particular
the trace `0,1000` then `2,-1` (start time 0) yields exactly the initial apply
at rate 1000 followed by the sleep to offset 2, and the loop ends at clock 2. -/
theorem C5_sentinel_stops (i l : String) (t : Rat) (rows pre post : List (List String))
    (row : List String) (o : Rat) (k : Int) (s : LoopSt)
    (hskip : skipRow row = false) (hp : parseRow row = some (o, k)) (hk : k < 0) :
    loop i l t (pre ++ row :: post) s = loop i l t (pre ++ [row]) s ∧
    ((loop i l t rows (initSt t)).events.all Ev.rateOkB) = true ∧
    (loop i l 0 [["0", "1000"], ["2", "-1"]] (initSt 0)).events =
      [Ev.initialApply i 1000 l, Ev.sleepUntil 2] ∧
    (loop i l 0 [["0", "1000"], ["2", "-1"]] (initSt 0)).now = 2 := by
  refine ⟨loop_sentinel_truncates i l t pre post row o k hskip hp hk s,
    loop_rateOk i l t rows (initSt t) rfl, ?_, ?_⟩ <;> with_unfolding_all rfl

/-- C5 witness: the truncation and example facts at a concrete sentinel row. -/
theorem C5_sentinel_stops_witness :
    (skipRow ["2", "-1"] = false) ∧
    (parseRow ["2", "-1"] = some (2, -1)) ∧
    ((-1 : Int) < 0) ∧
    (loop "eth0" "50ms" 0 ([["0", "1000"]] ++ ["2", "-1"] :: [["9", "999"]]) (initSt 0) =
        loop "eth0" "50ms" 0 ([["0", "1000"]] ++ [["2", "-1"]]) (initSt 0) ∧
      ((loop "eth0" "50ms" 0 [["0", "1000"], ["2", "-1"]] (initSt 0)).events.all Ev.rateOkB)
        = true ∧
      (loop "eth0" "50ms" 0 [["0", "1000"], ["2", "-1"]] (initSt 0)).events =
        [Ev.initialApply "eth0" 1000 "50ms", Ev.sleepUntil 2] ∧
      (loop "eth0" "50ms" 0 [["0", "1000"], ["2", "-1"]] (initSt 0)).now = 2) :=
  ⟨by with_unfolding_all decide, by with_unfolding_all decide, by decide,
    C5_sentinel_stops "eth0" "50ms" 0 [["0", "1000"], ["2", "-1"]] [["0", "1000"]]
      [["9", "999"]] ["2", "-1"] 2 (-1) (initSt 0)
      (by with_unfolding_all decide) (by with_unfolding_all decide) (by decide)⟩

/-- C1 counterexample: a run that ends by the sentinel (trace `0,-1`) never
sets the target interface, so its cleanup issues the root-qdisc delete zero
times, not exactly once as claimed. -/
theorem C1_counterexample :
    (mainRun ["bandwidth_control.py", "eth0", "trace.csv"]
        (.present [["0", "-1"]]) 0).cleanup_invocations = 1 ∧
    (mainRun ["bandwidth_control.py", "eth0", "trace.csv"]
        (.present [["0", "-1"]]) 0).cleanup_cmds = [] ∧
    (mainRun ["bandwidth_control.py", "eth0", "trace.csv"]
        (.present [["0", "-1"]]) 0).cleanup_cmds.length = 0 := by
  refine ⟨?_, ?_, ?_⟩ <;> with_unfolding_all rfl

/-- C1 (amended): on every run that passes the argument check and is not
interrupted by a signal, the cleanup routine runs exactly once at process end
and issues the root-qdisc delete exactly once when an initial apply occurred
and the interface name is non-empty (Python's truthiness test at line 54
treats the empty string like an unset target), and zero times otherwise; and
issuing the teardown delete twice in direct succession leaves the hierarchy
in the same state as issuing it once. -/
theorem C1_teardown_once (argv : List String) (file : TraceFile) (t : Rat)
    (h : ¬ (argv.length < 3 ∨ argv.length > 4)) :
    (mainRun argv file t).cleanup_invocations = 1 ∧
    (mainRun argv file t).cleanup_cmds.length =
      (if ((mainRun argv file t).events.any Ev.isInitialB) = true ∧ ¬ (argv.getD 1 "" = "")
        then 1 else 0) ∧
    (∀ (ts : TcState) (d : String),
      stepCmds ts [TcCmd.qdiscDelRoot d, TcCmd.qdiscDelRoot d] =
        stepCmds ts [TcCmd.qdiscDelRoot d]) := by
  refine ⟨?_, ?_, fun ts d => rfl⟩
  · unfold mainRun
    rw [if_neg h]
    cases file with
    | missing => simp [cleanup_tc]
    | present all_rows =>
      cases hrp : rows_to_process all_rows with
      | none => simp [hrp, cleanup_tc]
      | some lrows =>
        cases lrows with
        | nil => simp [hrp, cleanup_tc]
        | cons r rs => simp [hrp]
  · rw [mainRun_cleanup_cmds argv file t h]
    split <;> simp

/-- C1 witness: the amended statement at a concrete one-event run. -/
theorem C1_teardown_once_witness :
    (¬ ((["bandwidth_control.py", "eth0", "gone.csv"] : List String).length < 3 ∨
        (["bandwidth_control.py", "eth0", "gone.csv"] : List String).length > 4)) ∧
    ((mainRun ["bandwidth_control.py", "eth0", "gone.csv"]
        (.present [["0", "400"]]) 0).cleanup_invocations = 1 ∧
      (mainRun ["bandwidth_control.py", "eth0", "gone.csv"]
          (.present [["0", "400"]]) 0).cleanup_cmds.length =
        (if ((mainRun ["bandwidth_control.py", "eth0", "gone.csv"]
              (.present [["0", "400"]]) 0).events.any Ev.isInitialB) = true ∧
            ¬ ((["bandwidth_control.py", "eth0", "gone.csv"] : List String).getD 1 "" = "")
          then 1 else 0) ∧
      (∀ (ts : TcState) (d : String),
        stepCmds ts [TcCmd.qdiscDelRoot d, TcCmd.qdiscDelRoot d] =
          stepCmds ts [TcCmd.qdiscDelRoot d])) :=
  ⟨by decide, C1_teardown_once ["bandwidth_control.py", "eth0", "gone.csv"]
    (.present [["0", "400"]]) 0 (by decide)⟩

/-- C4 counterexample: a trace whose single body row is malformed has zero
usable rows after filtering, yet the program does not report the empty-trace
error: it completes normally (exit 0, no shaping applied).  The empty-trace
check only fires when zero rows remain after header removal. -/
theorem C4_counterexample :
    usableRows [["abc", "xyz"]] = [] ∧
    (mainRun ["bandwidth_control.py", "eth0", "trace.csv"]
        (.present [["abc", "xyz"]]) 0).trace_empty_error = false ∧
    (mainRun ["bandwidth_control.py", "eth0", "trace.csv"]
        (.present [["abc", "xyz"]]) 0).exit_code = 0 ∧
    (mainRun ["bandwidth_control.py", "eth0", "trace.csv"]
        (.present [["abc", "xyz"]]) 0).events = [] := by
  refine ⟨?_, ?_, ?_, ?_⟩ <;> with_unfolding_all rfl

/-- C4 (amended): the empty-trace error is reported exactly when the row list
left after optional header removal is empty (an empty file or a header-only
file); bodies consisting only of comment-marked, blank or malformed rows are
not detected as empty and the run completes with no shaping applied. -/
theorem C4_trace_empty_iff (argv : List String) (rows : List (List String)) (t : Rat)
    (h : ¬ (argv.length < 3 ∨ argv.length > 4)) :
    ((mainRun argv (.present rows) t).trace_empty_error = true ↔
      rows_to_process rows = some []) := by
  unfold mainRun
  rw [if_neg h]
  cases hrp : rows_to_process rows with
  | none => simp [hrp]
  | some lrows =>
    cases lrows with
    | nil => simp [hrp]
    | cons r rs => simp [hrp]

/-- C4 witness: the amended statement at a concrete empty trace file. -/
theorem C4_trace_empty_iff_witness :
    (¬ ((["bandwidth_control.py", "eth0", "empty.csv"] : List String).length < 3 ∨
        (["bandwidth_control.py", "eth0", "empty.csv"] : List String).length > 4)) ∧
    ((mainRun ["bandwidth_control.py", "eth0", "empty.csv"] (.present []) 0).trace_empty_error
        = true ↔ rows_to_process [] = some []) :=
  ⟨by decide,
    C4_trace_empty_iff ["bandwidth_control.py", "eth0", "empty.csv"] [] 0 (by decide)⟩

/-- C9 counterexample: a trace whose first row is blank is fatal — the header
check evaluates `all_rows[0][0]`, raising IndexError, which aborts the run via
the generic exception handler — so the blank row is not ignored and the
following well-formed row `0,500` is never processed. -/
theorem C9_counterexample :
    (mainRun ["bandwidth_control.py", "eth0", "trace.csv"]
        (.present [[], ["0", "500"]]) 0).unexpected_error = true ∧
    (mainRun ["bandwidth_control.py", "eth0", "trace.csv"]
        (.present [[], ["0", "500"]]) 0).events = [] ∧
    (mainRun ["bandwidth_control.py", "eth0", "trace.csv"]
        (.present [[], ["0", "500"]]) 0).exit_code = 0 := by
  refine ⟨?_, ?_, ?_⟩ <;> with_unfolding_all rfl

/-- C9 (amended): within the body handed to the event loop (the rows after
header handling), blank rows, comment-marked rows and unparseable rows are
skipped without affecting anything else: the loop behaves exactly as on the
subsequence of usable rows.  (A blank first row, however, crashes the header
check before the loop runs.) -/
theorem C9_body_rows_filtered (i l : String) (t : Rat) (rows : List (List String))
    (s : LoopSt) :
    loop i l t rows s =
      loop i l t (rows.filter (fun row => !skipRow row && (parseRow row).isSome)) s := by
  induction rows generalizing s with
  | nil => rfl
  | cons row rest ih =>
    by_cases hskip : skipRow row
    · simp only [loop, hskip, if_true, List.filter_cons, Bool.not_true, Bool.false_and,
        if_false, Bool.false_eq_true]
      exact ih s
    · cases hp : parseRow row with
      | none =>
        have hdrop : (!skipRow row && (parseRow row).isSome) = false := by
          simp [hskip, hp]
        simp only [loop, hskip, if_false, hp, List.filter_cons, hdrop, Bool.false_eq_true]
        exact ih s
      | some v =>
        obtain ⟨o, k⟩ := v
        have hkeep : (!skipRow row && (parseRow row).isSome) = true := by
          simp [hskip, hp]
        simp only [List.filter_cons, hkeep, if_true]
        simp only [loop, hskip, if_false, hp, Bool.false_eq_true]
        by_cases hk : k < 0
        · simp [hk]
        · simp only [hk, if_false]
          split <;> exact ih _

/-- C10 counterexample: with interface name `""` (argv[1] empty), the run's
single event performs an initial apply and the global target interface is set
(to the empty string), yet cleanup issues no command at all: Python's
`if target_interface:` at line 54 is false for the empty string.  This
refutes "cleanup issues the delete if and only if an initial apply occurred
(the global target interface was set)". -/
theorem C10_counterexample :
    (mainRun ["bandwidth_control.py", "", "t.csv"] (.present [["0", "700"]]) 0).events =
      [Ev.initialApply "" 700 "50ms"] ∧
    ((mainRun ["bandwidth_control.py", "", "t.csv"] (.present [["0", "700"]]) 0).events.any
      Ev.isInitialB) = true ∧
    (mainRun ["bandwidth_control.py", "", "t.csv"] (.present [["0", "700"]]) 0).final_target =
      some "" ∧
    (mainRun ["bandwidth_control.py", "", "t.csv"] (.present [["0", "700"]]) 0).cleanup_cmds
      = [] ∧
    (mainRun ["bandwidth_control.py", "", "t.csv"]
        (.present [["0", "700"]]) 0).cleanup_cmds.length = 0 := by
  refine ⟨?_, ?_, ?_, ?_, ?_⟩ <;> with_unfolding_all rfl

/-- C10 (amended): on every run that passes the argument check, the process
exits 0 (also from the error paths); cleanup issues the root-qdisc delete
command exactly when an initial apply occurred and the interface name is
non-empty — Python's truthiness test treats an empty target interface like an
unset one — and no command otherwise; and the target interface variable ends
up set exactly when an initial apply occurred. -/
theorem C10_cleanup_conditional (argv : List String) (file : TraceFile) (t : Rat)
    (h : ¬ (argv.length < 3 ∨ argv.length > 4)) :
    (mainRun argv file t).exit_code = 0 ∧
    (mainRun argv file t).cleanup_cmds =
      (if ((mainRun argv file t).events.any Ev.isInitialB) = true ∧ ¬ (argv.getD 1 "" = "")
        then [TcCmd.qdiscDelRoot (argv.getD 1 "")] else []) ∧
    ((mainRun argv file t).events.any Ev.isInitialB) =
      (mainRun argv file t).final_target.isSome := by
  refine ⟨?_, mainRun_cleanup_cmds argv file t h, ?_⟩
  · unfold mainRun
    rw [if_neg h]
    cases file with
    | missing => rfl
    | present all_rows =>
      cases hrp : rows_to_process all_rows with
      | none => simp [hrp]
      | some lrows =>
        cases lrows with
        | nil => simp [hrp]
        | cons r rs => simp [hrp]
  · unfold mainRun
    rw [if_neg h]
    cases file with
    | missing => rfl
    | present all_rows =>
      cases hrp : rows_to_process all_rows with
      | none => simp [hrp]
      | some lrows =>
        cases lrows with
        | nil => simp [hrp]
        | cons r rs =>
          simp only [hrp]
          rw [any_isInitialB_schedOps,
            loop_schedOps_unset (argv.getD 1 "") (chooseLatency argv) t (r :: rs)
              (initSt t) rfl,
            loop_target_unset (argv.getD 1 "") (chooseLatency argv) t (r :: rs)
              (initSt t) rfl rfl]
          cases usableRates (r :: rs) with
          | nil => simp [initSt, schedOps]
          | cons u us => simp [initSt, schedOps, Ev.isInitialB]

/-- C10 witness: the amended statement at a concrete one-event run. -/
theorem C10_cleanup_conditional_witness :
    (¬ ((["bandwidth_control.py", "eth0", "t.csv"] : List String).length < 3 ∨
        (["bandwidth_control.py", "eth0", "t.csv"] : List String).length > 4)) ∧
    ((mainRun ["bandwidth_control.py", "eth0", "t.csv"]
        (.present [["0", "700"]]) 0).exit_code = 0 ∧
      (mainRun ["bandwidth_control.py", "eth0", "t.csv"]
          (.present [["0", "700"]]) 0).cleanup_cmds =
        (if ((mainRun ["bandwidth_control.py", "eth0", "t.csv"]
              (.present [["0", "700"]]) 0).events.any Ev.isInitialB) = true ∧
            ¬ ((["bandwidth_control.py", "eth0", "t.csv"] : List String).getD 1 "" = "")
          then [TcCmd.qdiscDelRoot
            ((["bandwidth_control.py", "eth0", "t.csv"] : List String).getD 1 "")] else []) ∧
      ((mainRun ["bandwidth_control.py", "eth0", "t.csv"]
          (.present [["0", "700"]]) 0).events.any Ev.isInitialB) =
        (mainRun ["bandwidth_control.py", "eth0", "t.csv"]
          (.present [["0", "700"]]) 0).final_target.isSome) :=
  ⟨by decide,
    C10_cleanup_conditional ["bandwidth_control.py", "eth0", "t.csv"]
      (.present [["0", "700"]]) 0 (by decide)⟩
